import Mathlib

/-!
# AutonomousDrive: the sense / decide / act cycle of `src/auto.c`

A shallow embedding of the control loop of `auto.c` and the properties of it
that the specification states.

Modelling conventions.

* A C `int` is a 32-bit two's-complement integer, held in an `Int` between
  `INT_MIN` and `INT_MAX`.  Where an operation of the code can leave that range
  its result is reduced modulo `2^32` by `wrap32`: these are the products
  `q * 15` of `update` and `direction * speed`, `direction * speed *
  turnMagnitude` of `move`.  The other operations cannot leave the range on
  32-bit operands, or agree with the wrapped computation all the same
  (`steer_gt_operands_fit`, `steer_le_operands_fit`, `turnMagnitude_machine`),
  and are written without `wrap32`; the negation `-rightMotorValue` of
  `setMotors` leaves the range only at `INT_MIN`.
* C integer division `/` truncates toward zero: `Int.tdiv`.  A division whose
  divisor is `0` is undefined behaviour in C; here it is the explicit fault
  `Fault.divisionByZero`, so that "no division by zero happens" is a statement
  about the result of the code.
* The module-level variables of `auto.c` are the fields of `Globals`.  The
  calls the code makes to `move` and to the library routine `motorSet` are
  recorded, in program order, in the ghost field `trace`.
* `ultrasonicGet(leftSonar)` and `ultrasonicGet(rightSonar)` are hardware
  reads: their two return values are the arguments `rawLeft`, `rawRight` of
  `sense`.
* The port numbers `LEFT_MOTOR_1_PORT`, ... come from a header that is not part
  of `auto.c`; they are the fields of the parameter `MotorPorts`.
-/

namespace AutonomousDrive

/-! ## Data model -/

/-- The turn threshold `int TURN_DISTANCE = 35;` (line 59).  Like the next two
it is a module-level `int` that `auto.c` initialises and never assigns. -/
def TURN_DISTANCE : Int := 35

/-- The backup threshold `int BACKUP_DISTANCE = 20;` (line 60). -/
def BACKUP_DISTANCE : Int := 20

/-- The drive speed `int DEFAULT_SPEED = 50;` (line 61). -/
def DEFAULT_SPEED : Int := 50

/-- The four motor channels named by the port constants used in `setMotors`. -/
structure MotorPorts where
  LEFT_MOTOR_1_PORT : Nat
  LEFT_MOTOR_2_PORT : Nat
  RIGHT_MOTOR_1_PORT : Nat
  RIGHT_MOTOR_2_PORT : Nat
  deriving DecidableEq, Repr

/-- An observable call made by the control loop. -/
inductive Event where
  /-- A call `move(speed, direction, turnAngle)`. -/
  | moveCall (speed direction turnAngle : Int)
  /-- A call `motorSet(port, value)`. -/
  | motorSet (port : Nat) (value : Int)
  deriving DecidableEq, Repr

/-- The module-level variables of `auto.c` (lines 71-75) and the ghost trace. -/
structure Globals where
  leftSonarValue : Int
  rightSonarValue : Int
  leftMotorValue : Int
  rightMotorValue : Int
  trace : List Event
  deriving DecidableEq, Repr

/-- The only run-time fault of the loop: an integer division by zero. -/
inductive Fault where
  | divisionByZero
  deriving DecidableEq, Repr

deriving instance DecidableEq for Except

/-! ## C arithmetic -/

/-- The least value of a 32-bit `int`. -/
def INT_MIN : Int := -2147483648

/-- The greatest value of a 32-bit `int`. -/
def INT_MAX : Int := 2147483647

/-- Reduction of a mathematical integer to the 32-bit two's-complement value
that the machine keeps: the representative of `x` modulo `2^32` between
`INT_MIN` and `INT_MAX`. -/
def wrap32 (x : Int) : Int := (x + 2147483648) % 4294967296 - 2147483648

/-- The C library function `abs` on `int`. -/
def cAbs (x : Int) : Int := if x < 0 then -x else x

/-- C integer division `a / b`: truncation toward zero, a fault when `b` is 0. -/
def cDiv (a b : Int) : Except Fault Int :=
  if b = 0 then Except.error Fault.divisionByZero else Except.ok (Int.tdiv a b)

/-! ## The functions of `auto.c` -/

/-- The local `int turnMagnitude = -((abs(turnAngle)-45)/45);` of `move`
(line 121).  The divisor is the literal 45, so the division cannot fault. -/
def turnMagnitude (turnAngle : Int) : Int :=
  -(Int.tdiv (cAbs turnAngle - 45) 45)

/-- The function `move` (lines 120-130).  The `int` products `direction * speed`
and `direction * speed * turnMagnitude` (that is, `(direction * speed) *
turnMagnitude`) are 32-bit products. -/
def move (speed direction turnAngle : Int) (g : Globals) : Globals :=
  let g0 := { g with trace := g.trace ++ [Event.moveCall speed direction turnAngle] }
  if turnAngle > 0 then
    { g0 with
      leftMotorValue := wrap32 (direction * speed)
      rightMotorValue := wrap32 (wrap32 (direction * speed) * turnMagnitude turnAngle) }
  else if turnAngle ≤ 0 then
    { g0 with
      leftMotorValue := wrap32 (wrap32 (direction * speed) * turnMagnitude turnAngle)
      rightMotorValue := wrap32 (direction * speed) }
  else g0

/-- The function `setMotors` (lines 160-165).  The negation `-rightMotorValue`
leaves the 32-bit range only at `INT_MIN`. -/
def setMotors (P : MotorPorts) (g : Globals) : Globals :=
  { g with
    trace := g.trace ++
      [ Event.motorSet P.LEFT_MOTOR_1_PORT g.leftMotorValue,
        Event.motorSet P.LEFT_MOTOR_2_PORT g.leftMotorValue,
        Event.motorSet P.RIGHT_MOTOR_1_PORT (-g.rightMotorValue),
        Event.motorSet P.RIGHT_MOTOR_2_PORT (-g.rightMotorValue) ] }

/-- The function `update` (lines 132-147).  The two steering branches divide by
a sonar value; `(int)(-leftSonarValue/rightSonarValue)*15` parses as
`((-leftSonarValue) / rightSonarValue) * 15`, and the product by 15 is a
32-bit product. -/
def update (P : MotorPorts) (g : Globals) : Except Fault Globals :=
  if g.leftSonarValue < BACKUP_DISTANCE ∧ g.rightSonarValue < BACKUP_DISTANCE then
    Except.ok (setMotors P (move DEFAULT_SPEED (-1) 0 g))
  else if g.leftSonarValue > TURN_DISTANCE ∧ g.rightSonarValue > TURN_DISTANCE then
    Except.ok (setMotors P (move DEFAULT_SPEED 1 0 g))
  else if g.leftSonarValue > g.rightSonarValue then
    match cDiv (-g.leftSonarValue) g.rightSonarValue with
    | Except.error e => Except.error e
    | Except.ok q => Except.ok (setMotors P (move DEFAULT_SPEED 1 (wrap32 (q * 15)) g))
  else if g.leftSonarValue ≤ g.rightSonarValue then
    match cDiv g.rightSonarValue g.leftSonarValue with
    | Except.error e => Except.error e
    | Except.ok q => Except.ok (setMotors P (move DEFAULT_SPEED 1 (wrap32 (q * 15)) g))
  else
    Except.ok (setMotors P g)

/-- The function `sense` (lines 149-158); `rawLeft` and `rawRight` are what the
two `ultrasonicGet` calls return. -/
def sense (rawLeft rawRight : Int) (g : Globals) : Globals :=
  let g1 := { g with leftSonarValue := rawLeft }
  let g2 := { g1 with rightSonarValue := rawRight }
  let g3 := if g2.leftSonarValue = 0 then { g2 with leftSonarValue := 300 } else g2
  if g3.rightSonarValue = 0 then { g3 with rightSonarValue := 300 } else g3

/-- The function `autonomous` (lines 112-118): one control cycle. -/
def autonomous (P : MotorPorts) (rawLeft rawRight : Int) (g : Globals) :
    Except Fault Globals :=
  let g1 := { g with leftMotorValue := 0 }
  let g2 := { g1 with rightMotorValue := 0 }
  update P (sense rawLeft rawRight g2)

/-! ## Observations on the trace -/

/-- The `move` calls recorded in a trace, as triples
`(speed, direction, turnAngle)`, in program order. -/
def moveCalls (t : List Event) : List (Int × Int × Int) :=
  t.filterMap fun e =>
    match e with
    | Event.moveCall s d a => some (s, d, a)
    | Event.motorSet _ _ => none

/-- The `motorSet` calls recorded in a trace, as pairs `(port, value)`, in
program order. -/
def motorWrites (t : List Event) : List (Nat × Int) :=
  t.filterMap fun e =>
    match e with
    | Event.moveCall _ _ _ => none
    | Event.motorSet p v => some (p, v)

/-- A sample port assignment used in the concrete evaluations. -/
def samplePorts : MotorPorts := ⟨2, 3, 4, 5⟩

/-- A sample initial state: all globals zero, nothing recorded. -/
def zeroGlobals : Globals := ⟨0, 0, 0, 0, []⟩

/-! ## Basic facts about the embedding -/

theorem wrap32_of_fits (x : Int) (hlo : INT_MIN ≤ x) (hhi : x ≤ INT_MAX) : wrap32 x = x := by
  unfold INT_MIN at hlo
  unfold INT_MAX at hhi
  unfold wrap32
  omega

theorem wrap32_fits (x : Int) : INT_MIN ≤ wrap32 x ∧ wrap32 x ≤ INT_MAX := by
  unfold INT_MIN INT_MAX wrap32
  omega

theorem wrap32_wrap32 (x : Int) : wrap32 (wrap32 x) = wrap32 x :=
  wrap32_of_fits _ (wrap32_fits x).1 (wrap32_fits x).2

theorem wrap32_mul_one (x : Int) : wrap32 (wrap32 x * 1) = wrap32 x := by
  rw [mul_one, wrap32_wrap32]

theorem wrap32_mul_zero (x : Int) : wrap32 (wrap32 x * 0) = 0 := by
  rw [mul_zero]
  rfl

theorem wrap32_fifty : wrap32 50 = 50 := by decide

theorem move_trace (speed direction turnAngle : Int) (g : Globals) :
    (move speed direction turnAngle g).trace =
      g.trace ++ [Event.moveCall speed direction turnAngle] := by
  unfold move
  split_ifs <;> rfl

theorem move_leftSonarValue (speed direction turnAngle : Int) (g : Globals) :
    (move speed direction turnAngle g).leftSonarValue = g.leftSonarValue := by
  unfold move
  split_ifs <;> rfl

theorem move_rightSonarValue (speed direction turnAngle : Int) (g : Globals) :
    (move speed direction turnAngle g).rightSonarValue = g.rightSonarValue := by
  unfold move
  split_ifs <;> rfl

theorem moveCalls_append (t u : List Event) :
    moveCalls (t ++ u) = moveCalls t ++ moveCalls u := by
  simp [moveCalls, List.filterMap_append]

theorem motorWrites_append (t u : List Event) :
    motorWrites (t ++ u) = motorWrites t ++ motorWrites u := by
  simp [motorWrites, List.filterMap_append]

theorem moveCalls_setMotors_move (P : MotorPorts) (speed direction turnAngle : Int)
    (g : Globals) :
    moveCalls (setMotors P (move speed direction turnAngle g)).trace =
      moveCalls g.trace ++ [(speed, direction, turnAngle)] := by
  simp [setMotors, move_trace, moveCalls]

theorem sense_leftSonarValue (rawLeft rawRight : Int) (g : Globals) :
    (sense rawLeft rawRight g).leftSonarValue = if rawLeft = 0 then 300 else rawLeft := by
  unfold sense
  by_cases hl : rawLeft = 0 <;> by_cases hr : rawRight = 0 <;> simp [hl, hr]

theorem sense_rightSonarValue (rawLeft rawRight : Int) (g : Globals) :
    (sense rawLeft rawRight g).rightSonarValue = if rawRight = 0 then 300 else rawRight := by
  unfold sense
  by_cases hl : rawLeft = 0 <;> by_cases hr : rawRight = 0 <;> simp [hl, hr]

/-! ## Sensor acquisition -/

/-- C1: after `sense`, each effective reading is 300 when the raw return of
that side is exactly 0 and is the raw return unchanged otherwise; the left
reading does not depend on the right raw return, nor the right reading on the
left one, and nothing else of the state is touched. -/
theorem sense_effective_readings (rawLeft rawRight : Int) (g : Globals) :
    (sense rawLeft rawRight g).leftSonarValue = (if rawLeft = 0 then 300 else rawLeft) ∧
    (sense rawLeft rawRight g).rightSonarValue = (if rawRight = 0 then 300 else rawRight) ∧
    (∀ otherRight : Int,
      (sense rawLeft otherRight g).leftSonarValue = (sense rawLeft rawRight g).leftSonarValue) ∧
    (∀ otherLeft : Int,
      (sense otherLeft rawRight g).rightSonarValue =
        (sense rawLeft rawRight g).rightSonarValue) := by
  refine ⟨sense_leftSonarValue _ _ _, sense_rightSonarValue _ _ _, ?_, ?_⟩
  · intro otherRight
    rw [sense_leftSonarValue, sense_leftSonarValue]
  · intro otherLeft
    rw [sense_rightSonarValue, sense_rightSonarValue]

theorem sense_trace (rawLeft rawRight : Int) (g : Globals) :
    (sense rawLeft rawRight g).trace = g.trace := by
  unfold sense
  by_cases hl : rawLeft = 0 <;> by_cases hr : rawRight = 0 <;> simp [hl, hr]

theorem sense_leftSonarValue_ne_zero (rawLeft rawRight : Int) (g : Globals) :
    (sense rawLeft rawRight g).leftSonarValue ≠ 0 := by
  rw [sense_leftSonarValue]
  split_ifs with h
  · decide
  · exact h

theorem sense_rightSonarValue_ne_zero (rawLeft rawRight : Int) (g : Globals) :
    (sense rawLeft rawRight g).rightSonarValue ≠ 0 := by
  rw [sense_rightSonarValue]
  split_ifs with h
  · decide
  · exact h

/-! ## Motion policy -/

theorem cDiv_of_ne_zero (a b : Int) (hb : b ≠ 0) : cDiv a b = Except.ok (Int.tdiv a b) := by
  simp [cDiv, hb]

/-- The steering branches of `update` do fault on a zero divisor: `update` alone,
entered with readings `(40, 0)`, divides by zero. -/
theorem update_zero_divisor_faults :
    update samplePorts ⟨40, 0, 0, 0, []⟩ = Except.error Fault.divisionByZero ∧
    update samplePorts ⟨0, 25, 0, 0, []⟩ = Except.error Fault.divisionByZero := by
  decide

/-- When neither divisor is zero, `update` returns a state. -/
theorem update_ok_of_ne_zero (P : MotorPorts) (g : Globals)
    (hl : g.leftSonarValue ≠ 0) (hr : g.rightSonarValue ≠ 0) :
    ∃ g', update P g = Except.ok g' := by
  unfold update
  split_ifs
  · exact ⟨_, rfl⟩
  · exact ⟨_, rfl⟩
  · rw [cDiv_of_ne_zero _ _ hr]
    exact ⟨_, rfl⟩
  · rw [cDiv_of_ne_zero _ _ hl]
    exact ⟨_, rfl⟩
  · exact ⟨_, rfl⟩

/-- One full cycle always returns a state. -/
theorem autonomous_cycle_returns (P : MotorPorts) (rawLeft rawRight : Int) (g : Globals) :
    ∃ g', autonomous P rawLeft rawRight g = Except.ok g' := by
  unfold autonomous
  exact update_ok_of_ne_zero P _ (sense_leftSonarValue_ne_zero _ _ _)
    (sense_rightSonarValue_ne_zero _ _ _)

/-- C2: for every pair of raw sensor returns (any integers) and every prior
state, the readings `sense` leaves are both non-zero, so both divisions the
steering branches of `update` can perform are defined, and one full cycle
`autonomous` returns a state: it never faults with a division by zero. -/
theorem autonomous_no_division_by_zero (P : MotorPorts) (rawLeft rawRight : Int)
    (g : Globals) :
    (sense rawLeft rawRight g).leftSonarValue ≠ 0 ∧
    (sense rawLeft rawRight g).rightSonarValue ≠ 0 ∧
    cDiv (-(sense rawLeft rawRight g).leftSonarValue) (sense rawLeft rawRight g).rightSonarValue
      = Except.ok (Int.tdiv (-(sense rawLeft rawRight g).leftSonarValue)
          (sense rawLeft rawRight g).rightSonarValue) ∧
    cDiv (sense rawLeft rawRight g).rightSonarValue (sense rawLeft rawRight g).leftSonarValue
      = Except.ok (Int.tdiv (sense rawLeft rawRight g).rightSonarValue
          (sense rawLeft rawRight g).leftSonarValue) ∧
    (∃ g', autonomous P rawLeft rawRight g = Except.ok g') ∧
    autonomous P rawLeft rawRight g ≠ Except.error Fault.divisionByZero := by
  have hl := sense_leftSonarValue_ne_zero rawLeft rawRight g
  have hr := sense_rightSonarValue_ne_zero rawLeft rawRight g
  have hok := autonomous_cycle_returns P rawLeft rawRight g
  refine ⟨hl, hr, cDiv_of_ne_zero _ _ hr, cDiv_of_ne_zero _ _ hl, hok, ?_⟩
  obtain ⟨g', hg'⟩ := hok
  rw [hg']
  exact fun h => Except.noConfusion h

/-- C3: with both effective readings below 20, `update` returns, its result is
that of `move(DEFAULT_SPEED, -1, 0)` followed by `setMotors`, and the one call of
`move` it makes is `move(50, -1, 0)`. -/
theorem update_retreat (P : MotorPorts) (g : Globals)
    (hl : g.leftSonarValue < 20) (hr : g.rightSonarValue < 20) :
    ∃ g', update P g = Except.ok g' ∧
      g' = setMotors P (move DEFAULT_SPEED (-1) 0 g) ∧
      moveCalls g'.trace = moveCalls g.trace ++ [(50, -1, 0)] := by
  refine ⟨setMotors P (move DEFAULT_SPEED (-1) 0 g), ?_, rfl, ?_⟩
  · unfold update
    rw [if_pos (by simp only [BACKUP_DISTANCE]; exact ⟨hl, hr⟩)]
  · rw [moveCalls_setMotors_move]
    rfl

/-- Readings `(10, 5)`: both below 20, the retreat command is issued. -/
theorem update_retreat_witness :
    (10 : Int) < 20 ∧ (5 : Int) < 20 ∧
    ∃ g', update samplePorts ⟨10, 5, 0, 0, []⟩ = Except.ok g' ∧
      g' = setMotors samplePorts (move DEFAULT_SPEED (-1) 0 ⟨10, 5, 0, 0, []⟩) ∧
      moveCalls g'.trace = moveCalls [] ++ [(50, -1, 0)] :=
  ⟨by decide, by decide, update_retreat samplePorts ⟨10, 5, 0, 0, []⟩ (by decide) (by decide)⟩

/-- C4: with both effective readings above 35, `update` returns, its result is
that of `move(DEFAULT_SPEED, 1, 0)` followed by `setMotors`, and the one call of
`move` it makes is `move(50, 1, 0)`. -/
theorem update_advance (P : MotorPorts) (g : Globals)
    (hl : g.leftSonarValue > 35) (hr : g.rightSonarValue > 35) :
    ∃ g', update P g = Except.ok g' ∧
      g' = setMotors P (move DEFAULT_SPEED 1 0 g) ∧
      moveCalls g'.trace = moveCalls g.trace ++ [(50, 1, 0)] := by
  refine ⟨setMotors P (move DEFAULT_SPEED 1 0 g), ?_, rfl, ?_⟩
  · unfold update
    rw [if_neg (by simp only [BACKUP_DISTANCE]; omega),
      if_pos (by simp only [TURN_DISTANCE]; exact ⟨hl, hr⟩)]
  · rw [moveCalls_setMotors_move]
    rfl

/-- Readings `(300, 36)`: both above 35, the advance command is issued. -/
theorem update_advance_witness :
    (300 : Int) > 35 ∧ (36 : Int) > 35 ∧
    ∃ g', update samplePorts ⟨300, 36, 0, 0, []⟩ = Except.ok g' ∧
      g' = setMotors samplePorts (move DEFAULT_SPEED 1 0 ⟨300, 36, 0, 0, []⟩) ∧
      moveCalls g'.trace = moveCalls [] ++ [(50, 1, 0)] :=
  ⟨by decide, by decide, update_advance samplePorts ⟨300, 36, 0, 0, []⟩ (by decide) (by decide)⟩

theorem cAbs_eq_abs (x : Int) : cAbs x = |x| := by
  unfold cAbs
  split_ifs with h
  · exact (abs_of_neg h).symm
  · exact (abs_of_nonneg (not_lt.mp h)).symm

theorem turnMagnitude_zero : turnMagnitude 0 = 1 := by decide

theorem move_leftMotorValue (speed direction turnAngle : Int) (g : Globals) :
    (move speed direction turnAngle g).leftMotorValue =
      if turnAngle > 0 then wrap32 (direction * speed)
      else wrap32 (wrap32 (direction * speed) * turnMagnitude turnAngle) := by
  unfold move
  split_ifs with h1 h2
  · rfl
  · rfl
  · exact absurd (not_lt.mp h1) h2

theorem move_rightMotorValue (speed direction turnAngle : Int) (g : Globals) :
    (move speed direction turnAngle g).rightMotorValue =
      if turnAngle > 0 then wrap32 (wrap32 (direction * speed) * turnMagnitude turnAngle)
      else wrap32 (direction * speed) := by
  unfold move
  split_ifs with h1 h2
  · rfl
  · rfl
  · exact absurd (not_lt.mp h1) h2

/-- C8: for every speed and direction, `move(speed, direction, 0)` does not take
the `turnAngle > 0` branch, `turnMagnitude` is 1, the left wheel value is the one
the `turnAngle <= 0` branch assigns, and both wheel values are the `int` product
`direction * speed`, hence equal: the number `direction * speed` itself whenever
it lies between `INT_MIN` and `INT_MAX`. -/
theorem move_zero_turn_straight (speed direction : Int) (g : Globals) :
    ¬ ((0 : Int) > 0) ∧ (0 : Int) ≤ 0 ∧ turnMagnitude 0 = 1 ∧
    (move speed direction 0 g).leftMotorValue =
      wrap32 (wrap32 (direction * speed) * turnMagnitude 0) ∧
    (move speed direction 0 g).leftMotorValue = wrap32 (direction * speed) ∧
    (move speed direction 0 g).rightMotorValue = wrap32 (direction * speed) ∧
    (move speed direction 0 g).leftMotorValue = (move speed direction 0 g).rightMotorValue ∧
    (INT_MIN ≤ direction * speed ∧ direction * speed ≤ INT_MAX →
      (move speed direction 0 g).leftMotorValue = direction * speed * turnMagnitude 0 ∧
      (move speed direction 0 g).leftMotorValue = direction * speed ∧
      (move speed direction 0 g).rightMotorValue = direction * speed) := by
  have hL : (move speed direction 0 g).leftMotorValue =
      wrap32 (wrap32 (direction * speed) * turnMagnitude 0) := by
    rw [move_leftMotorValue, if_neg (by decide)]
  have hR : (move speed direction 0 g).rightMotorValue = wrap32 (direction * speed) := by
    rw [move_rightMotorValue, if_neg (by decide)]
  have hL1 : (move speed direction 0 g).leftMotorValue = wrap32 (direction * speed) := by
    rw [hL, turnMagnitude_zero, wrap32_mul_one]
  refine ⟨by decide, by decide, turnMagnitude_zero, hL, hL1, hR, hL1.trans hR.symm, ?_⟩
  rintro ⟨hlo, hhi⟩
  rw [hL1, hR, turnMagnitude_zero, mul_one, wrap32_of_fits _ hlo hhi]
  exact ⟨rfl, rfl, rfl⟩

/-! ## Actuation -/

theorem setMotors_trace (P : MotorPorts) (g : Globals) :
    (setMotors P g).trace = g.trace ++
      [ Event.motorSet P.LEFT_MOTOR_1_PORT g.leftMotorValue,
        Event.motorSet P.LEFT_MOTOR_2_PORT g.leftMotorValue,
        Event.motorSet P.RIGHT_MOTOR_1_PORT (-g.rightMotorValue),
        Event.motorSet P.RIGHT_MOTOR_2_PORT (-g.rightMotorValue) ] := rfl

/-- Whenever `update` returns, its result is that of one call of `move` followed
by `setMotors`. -/
theorem update_trace (P : MotorPorts) (g g' : Globals) (h : update P g = Except.ok g') :
    ∃ speed direction turnAngle : Int,
      g' = setMotors P (move speed direction turnAngle g) := by
  unfold update at h
  split_ifs at h with h1 h2 h3 h4
  · exact ⟨_, _, _, (Except.ok.inj h).symm⟩
  · exact ⟨_, _, _, (Except.ok.inj h).symm⟩
  · split at h
    · exact Except.noConfusion h
    · exact ⟨_, _, _, (Except.ok.inj h).symm⟩
  · split at h
    · exact Except.noConfusion h
    · exact ⟨_, _, _, (Except.ok.inj h).symm⟩
  · exact absurd (not_lt.mp h3) h4

/-- C10: for every `(speed, direction, turnAngle)` and any two prior states,
`move` leaves the same wheel command pair: one of the two branches
`turnAngle > 0`, `turnAngle <= 0` is always taken, and each assigns both motor
values from the arguments alone. -/
theorem move_no_hidden_state (speed direction turnAngle : Int) (g₁ g₂ : Globals) :
    (turnAngle > 0 ∨ turnAngle ≤ 0) ∧
    (move speed direction turnAngle g₁).leftMotorValue =
      (move speed direction turnAngle g₂).leftMotorValue ∧
    (move speed direction turnAngle g₁).rightMotorValue =
      (move speed direction turnAngle g₂).rightMotorValue := by
  refine ⟨lt_or_le 0 turnAngle, ?_, ?_⟩
  · rw [move_leftMotorValue, move_leftMotorValue]
  · rw [move_rightMotorValue, move_rightMotorValue]

/-! ## The cycle as a whole -/

theorem move_eq (speed direction turnAngle : Int) (g : Globals) :
    move speed direction turnAngle g =
      { leftSonarValue := g.leftSonarValue
        rightSonarValue := g.rightSonarValue
        leftMotorValue :=
          if turnAngle > 0 then wrap32 (direction * speed)
          else wrap32 (wrap32 (direction * speed) * turnMagnitude turnAngle)
        rightMotorValue :=
          if turnAngle > 0 then wrap32 (wrap32 (direction * speed) * turnMagnitude turnAngle)
          else wrap32 (direction * speed)
        trace := g.trace ++ [Event.moveCall speed direction turnAngle] } := by
  unfold move
  split_ifs with h1 h2
  · rfl
  · rfl
  · exact absurd (not_lt.mp h1) h2

/-- The state `update` returns is determined by the two sonar readings: the
motor values it is entered with are overwritten, and the trace it is entered
with is only extended. -/
theorem update_frame (P : MotorPorts) (g : Globals) :
    update P g =
      (update P ⟨g.leftSonarValue, g.rightSonarValue, 0, 0, []⟩).map
        (fun r => { r with trace := g.trace ++ r.trace }) := by
  unfold update
  dsimp only
  by_cases h1 : g.leftSonarValue < BACKUP_DISTANCE ∧ g.rightSonarValue < BACKUP_DISTANCE
  · rw [if_pos h1, if_pos h1]
    simp [Except.map, move_eq, setMotors]
  · rw [if_neg h1, if_neg h1]
    by_cases h2 : g.leftSonarValue > TURN_DISTANCE ∧ g.rightSonarValue > TURN_DISTANCE
    · rw [if_pos h2, if_pos h2]
      simp [Except.map, move_eq, setMotors]
    · rw [if_neg h2, if_neg h2]
      by_cases h3 : g.leftSonarValue > g.rightSonarValue
      · rw [if_pos h3, if_pos h3]
        generalize cDiv (-g.leftSonarValue) g.rightSonarValue = c
        cases c <;> simp [Except.map, move_eq, setMotors]
      · rw [if_neg h3, if_neg h3, if_pos (not_lt.mp h3), if_pos (not_lt.mp h3)]
        generalize cDiv g.rightSonarValue g.leftSonarValue = c
        cases c <;> simp [Except.map, move_eq, setMotors]

/-- One cycle from any state: the readings `sense` leaves decide the result, and
the events of the cycle are appended to the trace the state came with. -/
theorem autonomous_frame (P : MotorPorts) (rawLeft rawRight : Int) (g : Globals) :
    autonomous P rawLeft rawRight g =
      (update P ⟨if rawLeft = 0 then 300 else rawLeft,
          if rawRight = 0 then 300 else rawRight, 0, 0, []⟩).map
        (fun r => { r with trace := g.trace ++ r.trace }) := by
  unfold autonomous
  dsimp only
  rw [update_frame P (sense rawLeft rawRight _), sense_leftSonarValue, sense_rightSonarValue,
    sense_trace]

theorem update_advance_eq (P : MotorPorts) (g : Globals)
    (hl : g.leftSonarValue > 35) (hr : g.rightSonarValue > 35) :
    update P g = Except.ok ⟨g.leftSonarValue, g.rightSonarValue, 50, 50, g.trace ++
      [ Event.moveCall 50 1 0,
        Event.motorSet P.LEFT_MOTOR_1_PORT 50, Event.motorSet P.LEFT_MOTOR_2_PORT 50,
        Event.motorSet P.RIGHT_MOTOR_1_PORT (-50), Event.motorSet P.RIGHT_MOTOR_2_PORT (-50) ]⟩ := by
  unfold update
  rw [if_neg (by simp only [BACKUP_DISTANCE]; omega),
    if_pos (by simp only [TURN_DISTANCE]; exact ⟨hl, hr⟩)]
  simp [move_eq, setMotors, turnMagnitude_zero, DEFAULT_SPEED, wrap32_fifty]

/-- C11: for every pair of raw sensor returns and any two states before the
cycle, `autonomous` returns in both, with the same two sonar readings, the same
two motor values and the same events appended to the trace, among them the same
four motor writes; and the cycle without the zero reset at its start
(`sense` then `update`) gives the very same result. -/
theorem autonomous_stateless (P : MotorPorts) (rawLeft rawRight : Int) (g₁ g₂ : Globals) :
    (∃ (leftSonar rightSonar L R : Int) (events : List Event),
      autonomous P rawLeft rawRight g₁ =
        Except.ok ⟨leftSonar, rightSonar, L, R, g₁.trace ++ events⟩ ∧
      autonomous P rawLeft rawRight g₂ =
        Except.ok ⟨leftSonar, rightSonar, L, R, g₂.trace ++ events⟩ ∧
      motorWrites events =
        [ (P.LEFT_MOTOR_1_PORT, L), (P.LEFT_MOTOR_2_PORT, L),
          (P.RIGHT_MOTOR_1_PORT, -R), (P.RIGHT_MOTOR_2_PORT, -R) ]) ∧
    update P (sense rawLeft rawRight g₁) = autonomous P rawLeft rawRight g₁ := by
  constructor
  · obtain ⟨r, hr⟩ := update_ok_of_ne_zero P
      ⟨if rawLeft = 0 then 300 else rawLeft, if rawRight = 0 then 300 else rawRight, 0, 0, []⟩
      (by dsimp only; split_ifs with h; exacts [by decide, h])
      (by dsimp only; split_ifs with h; exacts [by decide, h])
    refine ⟨r.leftSonarValue, r.rightSonarValue, r.leftMotorValue, r.rightMotorValue,
      r.trace, ?_, ?_, ?_⟩
    · rw [autonomous_frame, hr]
      rfl
    · rw [autonomous_frame, hr]
      rfl
    · obtain ⟨speed, direction, turnAngle, rfl⟩ := update_trace P _ _ hr
      rw [setMotors_trace, move_trace, motorWrites_append, motorWrites_append]
      rfl
  · rw [autonomous_frame, update_frame P (sense rawLeft rawRight g₁), sense_leftSonarValue,
      sense_rightSonarValue, sense_trace]

/-- C12: no saturation.  With raw returns `(0, 10)` the left reading becomes
300, the cycle calls `move(50, 1, -450)`, `turnMagnitude` is `-9`, the wheel
pair is `(-450, 50)`, the left channels are written `-450` and the right
channels `-50`; so some cycle produces a wheel value of magnitude above the
commanded speed 50. -/
theorem autonomous_no_saturation (P : MotorPorts) (g : Globals) :
    autonomous P 0 10 g = Except.ok ⟨300, 10, -450, 50, g.trace ++
      [ Event.moveCall 50 1 (-450),
        Event.motorSet P.LEFT_MOTOR_1_PORT (-450), Event.motorSet P.LEFT_MOTOR_2_PORT (-450),
        Event.motorSet P.RIGHT_MOTOR_1_PORT (-50), Event.motorSet P.RIGHT_MOTOR_2_PORT (-50) ]⟩ ∧
    turnMagnitude (-450) = -9 ∧
    (∃ (rawLeft rawRight : Int) (g' : Globals),
      autonomous P rawLeft rawRight g = Except.ok g' ∧
      (DEFAULT_SPEED < |g'.leftMotorValue| ∨ DEFAULT_SPEED < |g'.rightMotorValue|)) := by
  have h : autonomous P 0 10 g = Except.ok ⟨300, 10, -450, 50, g.trace ++
      [ Event.moveCall 50 1 (-450),
        Event.motorSet P.LEFT_MOTOR_1_PORT (-450), Event.motorSet P.LEFT_MOTOR_2_PORT (-450),
        Event.motorSet P.RIGHT_MOTOR_1_PORT (-50), Event.motorSet P.RIGHT_MOTOR_2_PORT (-50) ]⟩ := by
    rw [autonomous_frame]
    rfl
  refine ⟨h, by decide, 0, 10, _, h, Or.inl ?_⟩
  show DEFAULT_SPEED < |(-450 : Int)|
  decide

/-- C13: when each raw return is either 0 or greater than 35, one cycle returns
with wheel pair `(50, 50)`, having called `move(50, 1, 0)` and written 50 to both
left channels and -50 to both right channels. -/
theorem autonomous_clear_path_straight (P : MotorPorts) (rawLeft rawRight : Int) (g : Globals)
    (hl : rawLeft = 0 ∨ rawLeft > 35) (hr : rawRight = 0 ∨ rawRight > 35) :
    autonomous P rawLeft rawRight g =
      Except.ok ⟨if rawLeft = 0 then 300 else rawLeft,
        if rawRight = 0 then 300 else rawRight, 50, 50, g.trace ++
        [ Event.moveCall 50 1 0,
          Event.motorSet P.LEFT_MOTOR_1_PORT 50, Event.motorSet P.LEFT_MOTOR_2_PORT 50,
          Event.motorSet P.RIGHT_MOTOR_1_PORT (-50),
          Event.motorSet P.RIGHT_MOTOR_2_PORT (-50) ]⟩ := by
  have hl' : (if rawLeft = 0 then (300 : Int) else rawLeft) > 35 := by
    split_ifs with h
    · decide
    · exact hl.resolve_left h
  have hr' : (if rawRight = 0 then (300 : Int) else rawRight) > 35 := by
    split_ifs with h
    · decide
    · exact hr.resolve_left h
  rw [autonomous_frame, update_advance_eq P _ hl' hr']
  rfl

/-- Raw returns `(0, 36)`: nothing on the left, 36 on the right. -/
theorem autonomous_clear_path_straight_witness :
    ((0 : Int) = 0 ∨ (0 : Int) > 35) ∧ ((36 : Int) = 0 ∨ (36 : Int) > 35) ∧
    autonomous samplePorts 0 36 zeroGlobals =
      Except.ok ⟨300, 36, 50, 50,
        [ Event.moveCall 50 1 0, Event.motorSet 2 50, Event.motorSet 3 50,
          Event.motorSet 4 (-50), Event.motorSet 5 (-50) ]⟩ :=
  ⟨by decide, by decide,
    autonomous_clear_path_straight samplePorts 0 36 zeroGlobals (by decide) (by decide)⟩

/-! ## Arithmetic of the steering angle and of the turn magnitude -/

theorem tdiv_fortyfive (x : Int) :
    Int.tdiv x 45 = if 0 ≤ x then x / 45 else -((-x) / 45) := by
  split_ifs with h
  · exact Int.tdiv_eq_ediv h (by decide)
  · have h' : (0 : Int) ≤ -x := by omega
    have e : Int.tdiv x 45 = -(Int.tdiv (-x) 45) := by
      rw [Int.neg_tdiv, Int.neg_neg]
    rw [e, Int.tdiv_eq_ediv h' (by decide)]

theorem one_le_tdiv (a b : Int) (hb : 0 < b) (hab : b ≤ a) : 1 ≤ Int.tdiv a b := by
  rw [Int.tdiv_eq_ediv (le_trans (le_of_lt hb) hab) (le_of_lt hb),
    Int.le_ediv_iff_mul_le hb]
  omega

theorem tdiv_le_self_of_pos (a b : Int) (hb : 0 < b) (hab : b ≤ a) : Int.tdiv a b ≤ a := by
  rw [Int.tdiv_eq_ediv (le_trans (le_of_lt hb) hab) (le_of_lt hb)]
  exact Int.ediv_le_self b (le_trans (le_of_lt hb) hab)

theorem natAbs_tdiv_le (a b : Int) : (Int.tdiv a b).natAbs ≤ a.natAbs := by
  rw [Int.natAbs_tdiv]
  exact Nat.div_le_self _ _

theorem cAbs_neg (x : Int) : cAbs (-x) = cAbs x := by
  unfold cAbs
  split_ifs <;> omega

theorem turnMagnitude_neg (turnAngle : Int) :
    turnMagnitude (-turnAngle) = turnMagnitude turnAngle := by
  unfold turnMagnitude
  rw [cAbs_neg]

theorem turnMagnitude_eq_one_iff (turnAngle : Int) :
    turnMagnitude turnAngle = 1 ↔ turnAngle = 0 := by
  unfold turnMagnitude cAbs
  rw [tdiv_fortyfive]
  split_ifs <;> omega

theorem turnMagnitude_nonpos (turnAngle : Int) (h : turnAngle ≠ 0) :
    turnMagnitude turnAngle ≤ 0 := by
  unfold turnMagnitude cAbs
  rw [tdiv_fortyfive]
  split_ifs <;> omega

theorem turnMagnitude_small (turnAngle : Int) (h0 : turnAngle ≠ 0)
    (hlo : -90 < turnAngle) (hhi : turnAngle < 90) : turnMagnitude turnAngle = 0 := by
  unfold turnMagnitude cAbs
  rw [tdiv_fortyfive]
  split_ifs <;> omega

theorem turnMagnitude_bounds (turnAngle : Int)
    (hlo : INT_MIN ≤ turnAngle) (hhi : turnAngle ≤ INT_MAX) :
    -47721857 ≤ turnMagnitude turnAngle ∧ turnMagnitude turnAngle ≤ 1 := by
  unfold INT_MIN at hlo
  unfold INT_MAX at hhi
  unfold turnMagnitude cAbs
  rw [tdiv_fortyfive]
  split_ifs <;> omega

/-! ## The operations written without `wrap32` are exact on 32-bit operands -/

/-- In the branch `leftSonarValue > rightSonarValue` of `update`, on 32-bit
readings, neither the negation `-leftSonarValue` nor the quotient leaves the
32-bit range. -/
theorem steer_gt_operands_fit (l r : Int)
    (hl : INT_MIN ≤ l ∧ l ≤ INT_MAX) (hr : INT_MIN ≤ r ∧ r ≤ INT_MAX) (hgt : l > r) :
    (INT_MIN ≤ -l ∧ -l ≤ INT_MAX) ∧
    (INT_MIN ≤ Int.tdiv (-l) r ∧ Int.tdiv (-l) r ≤ INT_MAX) := by
  have h := natAbs_tdiv_le (-l) r
  unfold INT_MIN INT_MAX at *
  omega

/-- In the branch `leftSonarValue <= rightSonarValue` of `update`, on 32-bit
readings, the quotient does not leave the 32-bit range. -/
theorem steer_le_operands_fit (l r : Int)
    (hl : INT_MIN ≤ l ∧ l ≤ INT_MAX) (hr : INT_MIN ≤ r ∧ r ≤ INT_MAX) (hle : l ≤ r) :
    INT_MIN ≤ Int.tdiv r l ∧ Int.tdiv r l ≤ INT_MAX := by
  have h := natAbs_tdiv_le r l
  unfold INT_MIN INT_MAX at *
  by_cases hr' : r = -2147483648
  · have hl' : l = -2147483648 := by omega
    rw [hr', hl']
    decide
  · omega

/-- The local `turnMagnitude` of `move`, computed with every operation reduced
to 32 bits (`abs`, the subtraction, the division and the negation), is
`turnMagnitude` on every 32-bit `turnAngle`, `INT_MIN` included. -/
theorem turnMagnitude_machine (turnAngle : Int)
    (hlo : INT_MIN ≤ turnAngle) (hhi : turnAngle ≤ INT_MAX) :
    wrap32 (-(wrap32 (Int.tdiv
      (wrap32 ((if turnAngle < 0 then wrap32 (-turnAngle) else turnAngle) - 45)) 45))) =
      turnMagnitude turnAngle := by
  unfold INT_MIN at hlo
  unfold INT_MAX at hhi
  unfold turnMagnitude cAbs
  simp only [tdiv_fortyfive]
  unfold wrap32
  split_ifs <;> omega

/-- The 32-bit product of a non-zero 32-bit quotient by 15 is not 0. -/
theorem wrap32_mul_fifteen_ne_zero (k : Int) (hk : k ≠ 0)
    (hlo : INT_MIN ≤ k) (hhi : k ≤ INT_MAX) : wrap32 (k * 15) ≠ 0 := by
  unfold INT_MIN at hlo
  unfold INT_MAX at hhi
  unfold wrap32
  omega

theorem fifty_mul_pred_eq (m q : Int) (hlo : -47721857 ≤ m) (hhi : m ≤ 1)
    (h : 50 * (m - 1) = 4294967296 * q) : m = 1 := by
  have hd : (2 : Int) * 2147483648 ∣ 2 * (25 * (m - 1)) := ⟨q, by linarith⟩
  have hd1 : (2147483648 : Int) ∣ 25 * (m - 1) :=
    (mul_dvd_mul_iff_left (by decide : (2 : Int) ≠ 0)).mp hd
  have hc : IsCoprime (2147483648 : Int) 25 := ⟨12, -1030792151, by norm_num⟩
  have hd2 : (2147483648 : Int) ∣ m - 1 := hc.dvd_of_dvd_mul_left hd1
  have h0 : m - 1 = 0 :=
    Int.eq_zero_of_abs_lt_dvd hd2 (by rw [abs_lt]; constructor <;> linarith)
  linarith

/-- The 32-bit product of 50, or of -50, by a turn magnitude is that same
wheel value only for the turn magnitude 1. -/
theorem wrap32_fifty_mul_eq_iff (m : Int) (hlo : -47721857 ≤ m) (hhi : m ≤ 1) :
    (wrap32 (50 * m) = 50 ↔ m = 1) ∧ (wrap32 (-50 * m) = -50 ↔ m = 1) := by
  constructor
  · constructor
    · intro h
      unfold wrap32 at h
      have e := Int.emod_add_ediv (50 * m + 2147483648) 4294967296
      exact fifty_mul_pred_eq m ((50 * m + 2147483648) / 4294967296) hlo hhi (by linarith)
    · intro h
      rw [h]
      decide
  · constructor
    · intro h
      unfold wrap32 at h
      have e := Int.emod_add_ediv (-50 * m + 2147483648) 4294967296
      exact fifty_mul_pred_eq m (-((-50 * m + 2147483648) / 4294967296)) hlo hhi (by linarith)
    · intro h
      rw [h]
      decide

/-! ## The four behaviours of `update` as equations -/

theorem update_retreat_eq (P : MotorPorts) (g : Globals)
    (h : g.leftSonarValue < 20 ∧ g.rightSonarValue < 20) :
    update P g = Except.ok (setMotors P (move 50 (-1) 0 g)) := by
  unfold update
  rw [if_pos (by simpa only [BACKUP_DISTANCE] using h)]
  rfl

theorem update_advance_move_eq (P : MotorPorts) (g : Globals)
    (hnb : ¬ (g.leftSonarValue < 20 ∧ g.rightSonarValue < 20))
    (h : g.leftSonarValue > 35 ∧ g.rightSonarValue > 35) :
    update P g = Except.ok (setMotors P (move 50 1 0 g)) := by
  unfold update
  rw [if_neg (by simpa only [BACKUP_DISTANCE] using hnb),
    if_pos (by simpa only [TURN_DISTANCE] using h)]
  rfl

theorem update_steer_gt_eq (P : MotorPorts) (g : Globals)
    (hr : g.rightSonarValue ≠ 0)
    (hnb : ¬ (g.leftSonarValue < 20 ∧ g.rightSonarValue < 20))
    (hnt : ¬ (g.leftSonarValue > 35 ∧ g.rightSonarValue > 35))
    (hgt : g.leftSonarValue > g.rightSonarValue) :
    update P g = Except.ok (setMotors P
      (move 50 1 (wrap32 (-(Int.tdiv g.leftSonarValue g.rightSonarValue) * 15)) g)) := by
  unfold update
  rw [if_neg (by simpa only [BACKUP_DISTANCE] using hnb),
    if_neg (by simpa only [TURN_DISTANCE] using hnt), if_pos hgt,
    cDiv_of_ne_zero _ _ hr, Int.neg_tdiv]
  rfl

theorem update_steer_le_eq (P : MotorPorts) (g : Globals)
    (hl : g.leftSonarValue ≠ 0)
    (hnb : ¬ (g.leftSonarValue < 20 ∧ g.rightSonarValue < 20))
    (hnt : ¬ (g.leftSonarValue > 35 ∧ g.rightSonarValue > 35))
    (hle : g.leftSonarValue ≤ g.rightSonarValue) :
    update P g = Except.ok (setMotors P
      (move 50 1 (wrap32 (Int.tdiv g.rightSonarValue g.leftSonarValue * 15)) g)) := by
  unfold update
  rw [if_neg (by simpa only [BACKUP_DISTANCE] using hnb),
    if_neg (by simpa only [TURN_DISTANCE] using hnt), if_neg (not_lt.mpr hle),
    if_pos hle, cDiv_of_ne_zero _ _ hl]
  rfl

/-- With strictly positive readings that reach a steering branch, `update`
returns having called `move(50, 1, t)`, where `t` is the 32-bit product
`k * 15` for the quotient `k` of the larger reading by the smaller, negated
when left exceeds right; `k` is non-zero and no larger in magnitude than the
larger reading. -/
theorem update_steer_angle (P : MotorPorts) (g : Globals)
    (hl : 0 < g.leftSonarValue) (hr : 0 < g.rightSonarValue)
    (hnb : ¬ (g.leftSonarValue < 20 ∧ g.rightSonarValue < 20))
    (hnt : ¬ (g.leftSonarValue > 35 ∧ g.rightSonarValue > 35)) :
    ∃ k : Int, update P g = Except.ok (setMotors P (move 50 1 (wrap32 (k * 15)) g)) ∧
      (g.leftSonarValue > g.rightSonarValue →
        k = -(Int.tdiv g.leftSonarValue g.rightSonarValue) ∧ k ≤ -1 ∧ -g.leftSonarValue ≤ k) ∧
      (g.leftSonarValue ≤ g.rightSonarValue →
        k = Int.tdiv g.rightSonarValue g.leftSonarValue ∧ 1 ≤ k ∧ k ≤ g.rightSonarValue) := by
  by_cases hgt : g.leftSonarValue > g.rightSonarValue
  · refine ⟨-(Int.tdiv g.leftSonarValue g.rightSonarValue),
      update_steer_gt_eq P g (ne_of_gt hr) hnb hnt hgt, ?_, ?_⟩
    · intro _
      have h1 := one_le_tdiv g.leftSonarValue g.rightSonarValue hr (le_of_lt hgt)
      have h2 := tdiv_le_self_of_pos g.leftSonarValue g.rightSonarValue hr (le_of_lt hgt)
      exact ⟨rfl, by omega, by omega⟩
    · intro hle
      omega
  · have hle : g.leftSonarValue ≤ g.rightSonarValue := not_lt.mp hgt
    refine ⟨Int.tdiv g.rightSonarValue g.leftSonarValue,
      update_steer_le_eq P g (ne_of_gt hl) hnb hnt hle, ?_, ?_⟩
    · intro h
      exact absurd h hgt
    · intro _
      exact ⟨rfl, one_le_tdiv g.rightSonarValue g.leftSonarValue hl hle,
        tdiv_le_self_of_pos g.rightSonarValue g.leftSonarValue hl hle⟩

/-- With strictly positive 32-bit readings that reach a steering branch, the
`turnAngle` that `update` passes to `move` is not 0. -/
theorem update_steer_angle_ne_zero (P : MotorPorts) (g : Globals)
    (hl : 0 < g.leftSonarValue) (hr : 0 < g.rightSonarValue)
    (hlmax : g.leftSonarValue ≤ INT_MAX) (hrmax : g.rightSonarValue ≤ INT_MAX)
    (hnb : ¬ (g.leftSonarValue < 20 ∧ g.rightSonarValue < 20))
    (hnt : ¬ (g.leftSonarValue > 35 ∧ g.rightSonarValue > 35)) :
    ∃ t : Int, update P g = Except.ok (setMotors P (move 50 1 t g)) ∧ t ≠ 0 := by
  obtain ⟨k, hk, hk1, hk2⟩ := update_steer_angle P g hl hr hnb hnt
  refine ⟨wrap32 (k * 15), hk, ?_⟩
  have hb : k ≠ 0 ∧ INT_MIN ≤ k ∧ k ≤ INT_MAX := by
    unfold INT_MIN INT_MAX at *
    rcases lt_or_le g.rightSonarValue g.leftSonarValue with h' | h'
    · have := hk1 h'
      omega
    · have := hk2 h'
      omega
  exact wrap32_mul_fifteen_ne_zero k hb.1 hb.2.1 hb.2.2

/-! ## Selection of the behaviour -/

/-- C14: with strictly positive readings (32-bit values, so at most `INT_MAX`)
`update` returns having made one call
`move(speed, direction, turnAngle)`, where `direction = -1` exactly when both
readings are below 20, and `turnAngle = 0` with `direction = 1` exactly when
both readings are above 35; at the boundaries, readings `(20, 20)` and readings
`(35, 35)` both give the call `move(50, 1, 15)`. -/
theorem update_first_match_strict (P : MotorPorts) (g : Globals)
    (hl : 0 < g.leftSonarValue) (hr : 0 < g.rightSonarValue)
    (hlmax : g.leftSonarValue ≤ INT_MAX) (hrmax : g.rightSonarValue ≤ INT_MAX) :
    (∃ (g' : Globals) (speed direction turnAngle : Int),
      update P g = Except.ok g' ∧
      moveCalls g'.trace = moveCalls g.trace ++ [(speed, direction, turnAngle)] ∧
      (direction = -1 ↔ (g.leftSonarValue < 20 ∧ g.rightSonarValue < 20)) ∧
      ((turnAngle = 0 ∧ direction = 1) ↔ (g.leftSonarValue > 35 ∧ g.rightSonarValue > 35))) ∧
    (∃ g' : Globals,
      update P ⟨20, 20, g.leftMotorValue, g.rightMotorValue, g.trace⟩ = Except.ok g' ∧
      moveCalls g'.trace = moveCalls g.trace ++ [(50, 1, 15)]) ∧
    (∃ g' : Globals,
      update P ⟨35, 35, g.leftMotorValue, g.rightMotorValue, g.trace⟩ = Except.ok g' ∧
      moveCalls g'.trace = moveCalls g.trace ++ [(50, 1, 15)]) := by
  refine ⟨?_, ?_, ?_⟩
  · by_cases hb : g.leftSonarValue < 20 ∧ g.rightSonarValue < 20
    · refine ⟨_, 50, -1, 0, update_retreat_eq P g hb, moveCalls_setMotors_move _ _ _ _ _, ?_, ?_⟩
      · exact ⟨fun _ => hb, fun _ => rfl⟩
      · constructor
        · rintro ⟨_, h⟩
          exact absurd h (by decide)
        · rintro ⟨h, _⟩
          omega
    · by_cases ht : g.leftSonarValue > 35 ∧ g.rightSonarValue > 35
      · refine ⟨_, 50, 1, 0, update_advance_move_eq P g hb ht,
          moveCalls_setMotors_move _ _ _ _ _, ?_, ?_⟩
        · constructor
          · intro h
            exact absurd h (by decide)
          · intro h
            exact absurd h hb
        · exact ⟨fun _ => ht, fun _ => ⟨rfl, rfl⟩⟩
      · obtain ⟨t, ht1, ht2⟩ := update_steer_angle_ne_zero P g hl hr hlmax hrmax hb ht
        refine ⟨_, 50, 1, t, ht1, moveCalls_setMotors_move _ _ _ _ _, ?_, ?_⟩
        · constructor
          · intro h
            exact absurd h (by decide)
          · intro h
            exact absurd h hb
        · constructor
          · rintro ⟨h, _⟩
            exact absurd h ht2
          · intro h
            exact absurd h ht
  · refine ⟨_, update_steer_le_eq P ⟨20, 20, g.leftMotorValue, g.rightMotorValue, g.trace⟩
      (by dsimp only; decide) (by dsimp only; decide) (by dsimp only; decide)
      (by dsimp only; decide), ?_⟩
    rw [moveCalls_setMotors_move]
    rfl
  · refine ⟨_, update_steer_le_eq P ⟨35, 35, g.leftMotorValue, g.rightMotorValue, g.trace⟩
      (by dsimp only; decide) (by dsimp only; decide) (by dsimp only; decide)
      (by dsimp only; decide), ?_⟩
    rw [moveCalls_setMotors_move]
    rfl

/-- Readings `(19, 7)`: the one call is `move(50, -1, 0)`, as both are below 20. -/
theorem update_first_match_strict_witness :
    (0 : Int) < 19 ∧ (0 : Int) < 7 ∧ (19 : Int) ≤ INT_MAX ∧ (7 : Int) ≤ INT_MAX ∧
    ((∃ (g' : Globals) (speed direction turnAngle : Int),
      update samplePorts ⟨19, 7, 0, 0, []⟩ = Except.ok g' ∧
      moveCalls g'.trace = [(speed, direction, turnAngle)] ∧
      (direction = -1 ↔ ((19 : Int) < 20 ∧ (7 : Int) < 20)) ∧
      ((turnAngle = 0 ∧ direction = 1) ↔ ((19 : Int) > 35 ∧ (7 : Int) > 35))) ∧
    (∃ g' : Globals,
      update samplePorts ⟨20, 20, 0, 0, []⟩ = Except.ok g' ∧
      moveCalls g'.trace = [(50, 1, 15)]) ∧
    (∃ g' : Globals,
      update samplePorts ⟨35, 35, 0, 0, []⟩ = Except.ok g' ∧
      moveCalls g'.trace = [(50, 1, 15)])) :=
  ⟨by decide, by decide, by decide, by decide,
    update_first_match_strict samplePorts ⟨19, 7, 0, 0, []⟩
      (by decide) (by decide) (by decide) (by decide)⟩

/-! ## Shape of the turn magnitude -/

/-- C15 as stated fails on the 32-bit products of `move`: for
`move(65536, 1, 2949120)` the product `direction * speed` is `65536`, non-zero,
`turnMagnitude` is `-65535`, and `65536 * -65535` reduces to `65536`, so both
wheel values are `65536` although `turnAngle` is not 0. -/
theorem move_equal_wheels_overflow :
    (1 : Int) * 65536 ≠ 0 ∧ (2949120 : Int) ≠ 0 ∧
    (INT_MIN ≤ (65536 : Int) ∧ (65536 : Int) ≤ INT_MAX) ∧
    (INT_MIN ≤ (2949120 : Int) ∧ (2949120 : Int) ≤ INT_MAX) ∧
    turnMagnitude 2949120 = -65535 ∧
    (move 65536 1 2949120 zeroGlobals).leftMotorValue = 65536 ∧
    (move 65536 1 2949120 zeroGlobals).rightMotorValue = 65536 ∧
    ¬ ((move 65536 1 2949120 zeroGlobals).leftMotorValue =
        (move 65536 1 2949120 zeroGlobals).rightMotorValue ↔ (2949120 : Int) = 0) := by
  have hL : (move 65536 1 2949120 zeroGlobals).leftMotorValue = 65536 := by decide
  have hR : (move 65536 1 2949120 zeroGlobals).rightMotorValue = 65536 := by decide
  refine ⟨by decide, by decide, by decide, by decide, by decide, hL, hR, ?_⟩
  intro h
  exact absurd (h.mp (hL.trans hR.symm)) (by decide)

/-- C15, amended: with `direction * speed` non-zero, `move` leaves equal wheel
values exactly when `turnAngle = 0`, provided the products `direction * speed`
and `direction * speed * turnMagnitude` lie between `INT_MIN` and `INT_MAX`, and
also for the arguments `update` passes (speed 50, direction 1 or -1, any 32-bit
`turnAngle`); `turnAngle = 0` gives equal wheel values in every case; and
`turnMagnitude`, which is `-((|turnAngle| - 45) / 45)` under truncating
division, is 1 exactly when `turnAngle = 0` and is at most 0 for every other
`turnAngle`. -/
theorem move_equal_wheels_iff (speed direction turnAngle : Int) (g : Globals)
    (h : direction * speed ≠ 0) :
    (turnAngle = 0 →
      (move speed direction turnAngle g).leftMotorValue =
        (move speed direction turnAngle g).rightMotorValue) ∧
    (INT_MIN ≤ direction * speed ∧ direction * speed ≤ INT_MAX ∧
      INT_MIN ≤ direction * speed * turnMagnitude turnAngle ∧
      direction * speed * turnMagnitude turnAngle ≤ INT_MAX →
      ((move speed direction turnAngle g).leftMotorValue =
        (move speed direction turnAngle g).rightMotorValue ↔ turnAngle = 0)) ∧
    (speed = 50 ∧ (direction = 1 ∨ direction = -1) ∧
      INT_MIN ≤ turnAngle ∧ turnAngle ≤ INT_MAX →
      ((move speed direction turnAngle g).leftMotorValue =
        (move speed direction turnAngle g).rightMotorValue ↔ turnAngle = 0)) ∧
    turnMagnitude turnAngle = -(Int.tdiv (|turnAngle| - 45) 45) ∧
    (turnMagnitude turnAngle = 1 ↔ turnAngle = 0) ∧
    (turnAngle ≠ 0 → turnMagnitude turnAngle ≤ 0) := by
  have hwheels : ((move speed direction turnAngle g).leftMotorValue =
      (move speed direction turnAngle g).rightMotorValue) ↔
      wrap32 (wrap32 (direction * speed) * turnMagnitude turnAngle) =
        wrap32 (direction * speed) := by
    rw [move_leftMotorValue, move_rightMotorValue]
    split_ifs
    · exact eq_comm
    · exact Iff.rfl
  refine ⟨?_, ?_, ?_, ?_, turnMagnitude_eq_one_iff turnAngle, turnMagnitude_nonpos turnAngle⟩
  · intro h0
    rw [hwheels, h0, turnMagnitude_zero, wrap32_mul_one]
  · rintro ⟨h1, h2, h3, h4⟩
    rw [hwheels, wrap32_of_fits _ h1 h2, wrap32_of_fits _ h3 h4,
      ← turnMagnitude_eq_one_iff]
    constructor
    · intro e
      exact mul_left_cancel₀ h (e.trans (mul_one _).symm)
    · intro e
      rw [e, mul_one]
  · rintro ⟨hs, hd, hlo, hhi⟩
    have hb := turnMagnitude_bounds turnAngle hlo hhi
    have hm := wrap32_fifty_mul_eq_iff (turnMagnitude turnAngle) hb.1 hb.2
    rw [hwheels, hs, ← turnMagnitude_eq_one_iff]
    rcases hd with hd | hd
    · rw [hd]
      have e : wrap32 ((1 : Int) * 50) = 50 := by decide
      rw [e]
      exact hm.1
    · rw [hd]
      have e : wrap32 ((-1 : Int) * 50) = -50 := by decide
      rw [e]
      exact hm.2
  · unfold turnMagnitude
    rw [cAbs_eq_abs]

/-- Arguments `(50, 1, 0)`: equal wheel values, and `turnMagnitude 0 = 1`. -/
theorem move_equal_wheels_iff_witness :
    (1 : Int) * 50 ≠ 0 ∧
    ((0 : Int) = 0 →
      (move 50 1 0 zeroGlobals).leftMotorValue = (move 50 1 0 zeroGlobals).rightMotorValue) ∧
    (INT_MIN ≤ (1 : Int) * 50 ∧ (1 : Int) * 50 ≤ INT_MAX ∧
      INT_MIN ≤ (1 : Int) * 50 * turnMagnitude 0 ∧
      (1 : Int) * 50 * turnMagnitude 0 ≤ INT_MAX →
      ((move 50 1 0 zeroGlobals).leftMotorValue =
        (move 50 1 0 zeroGlobals).rightMotorValue ↔ (0 : Int) = 0)) ∧
    ((50 : Int) = 50 ∧ ((1 : Int) = 1 ∨ (1 : Int) = -1) ∧
      INT_MIN ≤ (0 : Int) ∧ (0 : Int) ≤ INT_MAX →
      ((move 50 1 0 zeroGlobals).leftMotorValue =
        (move 50 1 0 zeroGlobals).rightMotorValue ↔ (0 : Int) = 0)) ∧
    turnMagnitude 0 = -(Int.tdiv (|(0 : Int)| - 45) 45) ∧
    (turnMagnitude 0 = 1 ↔ (0 : Int) = 0) ∧
    ((0 : Int) ≠ 0 → turnMagnitude 0 ≤ 0) :=
  ⟨by decide, move_equal_wheels_iff 50 1 0 zeroGlobals (by decide)⟩

/-- C16: for `0 < |turnAngle| < 90`, `turnMagnitude` is 0, so `move` leaves the
scaled wheel at 0 and the other at the `int` product `direction * speed` (the
number `direction * speed` itself whenever it lies between `INT_MIN` and
`INT_MAX`): the right wheel is 0 when `turnAngle > 0`, the left wheel is 0 when
`turnAngle < 0`; and the cycle with readings `(40, 20)` calls
`move(50, 1, -30)`, leaves the wheel pair `(0, 50)` and writes 0 to the left
channels and -50 to the right channels. -/
theorem move_small_turn_pivots (P : MotorPorts) (speed direction turnAngle : Int)
    (g : Globals) (h0 : 0 < |turnAngle|) (h90 : |turnAngle| < 90) :
    turnMagnitude turnAngle = 0 ∧
    (turnAngle > 0 →
      (move speed direction turnAngle g).leftMotorValue = wrap32 (direction * speed) ∧
      (move speed direction turnAngle g).rightMotorValue = 0) ∧
    (turnAngle < 0 →
      (move speed direction turnAngle g).leftMotorValue = 0 ∧
      (move speed direction turnAngle g).rightMotorValue = wrap32 (direction * speed)) ∧
    (INT_MIN ≤ direction * speed ∧ direction * speed ≤ INT_MAX →
      (turnAngle > 0 →
        (move speed direction turnAngle g).leftMotorValue = direction * speed ∧
        (move speed direction turnAngle g).rightMotorValue = 0) ∧
      (turnAngle < 0 →
        (move speed direction turnAngle g).leftMotorValue = 0 ∧
        (move speed direction turnAngle g).rightMotorValue = direction * speed)) ∧
    autonomous P 40 20 g = Except.ok ⟨40, 20, 0, 50, g.trace ++
      [ Event.moveCall 50 1 (-30),
        Event.motorSet P.LEFT_MOTOR_1_PORT 0, Event.motorSet P.LEFT_MOTOR_2_PORT 0,
        Event.motorSet P.RIGHT_MOTOR_1_PORT (-50),
        Event.motorSet P.RIGHT_MOTOR_2_PORT (-50) ]⟩ := by
  have hne : turnAngle ≠ 0 := abs_pos.mp h0
  have hb := abs_lt.mp h90
  have htm : turnMagnitude turnAngle = 0 := turnMagnitude_small turnAngle hne hb.1 hb.2
  have hpos : turnAngle > 0 →
      (move speed direction turnAngle g).leftMotorValue = wrap32 (direction * speed) ∧
      (move speed direction turnAngle g).rightMotorValue = 0 := by
    intro hp
    rw [move_leftMotorValue, move_rightMotorValue, if_pos hp, if_pos hp, htm, wrap32_mul_zero]
    exact ⟨rfl, rfl⟩
  have hneg : turnAngle < 0 →
      (move speed direction turnAngle g).leftMotorValue = 0 ∧
      (move speed direction turnAngle g).rightMotorValue = wrap32 (direction * speed) := by
    intro hn
    rw [move_leftMotorValue, move_rightMotorValue, if_neg (not_lt.mpr (le_of_lt hn)),
      if_neg (not_lt.mpr (le_of_lt hn)), htm, wrap32_mul_zero]
    exact ⟨rfl, rfl⟩
  refine ⟨htm, hpos, hneg, ?_, ?_⟩
  · rintro ⟨hlo, hhi⟩
    have e := wrap32_of_fits _ hlo hhi
    constructor
    · intro hp
      have := hpos hp
      rw [e] at this
      exact this
    · intro hn
      have := hneg hn
      rw [e] at this
      exact this
  · rw [autonomous_frame]
    rfl

/-- Arguments `(50, 1, -30)`: `turnMagnitude` is 0, the left wheel stops. -/
theorem move_small_turn_pivots_witness :
    (0 : Int) < |(-30 : Int)| ∧ |(-30 : Int)| < 90 ∧
    turnMagnitude (-30) = 0 ∧
    ((-30 : Int) > 0 →
      (move 50 1 (-30) zeroGlobals).leftMotorValue = wrap32 (1 * 50) ∧
      (move 50 1 (-30) zeroGlobals).rightMotorValue = 0) ∧
    ((-30 : Int) < 0 →
      (move 50 1 (-30) zeroGlobals).leftMotorValue = 0 ∧
      (move 50 1 (-30) zeroGlobals).rightMotorValue = wrap32 (1 * 50)) ∧
    (INT_MIN ≤ (1 : Int) * 50 ∧ (1 : Int) * 50 ≤ INT_MAX →
      ((-30 : Int) > 0 →
        (move 50 1 (-30) zeroGlobals).leftMotorValue = 1 * 50 ∧
        (move 50 1 (-30) zeroGlobals).rightMotorValue = 0) ∧
      ((-30 : Int) < 0 →
        (move 50 1 (-30) zeroGlobals).leftMotorValue = 0 ∧
        (move 50 1 (-30) zeroGlobals).rightMotorValue = 1 * 50)) ∧
    autonomous samplePorts 40 20 zeroGlobals = Except.ok ⟨40, 20, 0, 50,
      [ Event.moveCall 50 1 (-30), Event.motorSet 2 0, Event.motorSet 3 0,
        Event.motorSet 4 (-50), Event.motorSet 5 (-50) ]⟩ :=
  ⟨by decide, by decide,
    move_small_turn_pivots samplePorts 50 1 (-30) zeroGlobals (by decide) (by decide)⟩

/-- C17 as stated fails on the 32-bit product `q * 15` of `update`: readings
`(1, 143165577)` are strictly positive, reach the branch
`leftSonarValue <= rightSonarValue`, and `143165577 * 15 = 2147483655` reduces
to `-2147483641`, a `turnAngle` that is neither a multiple of 15 nor at least
15. -/
theorem update_steer_overflow :
    (0 : Int) < 1 ∧ (0 : Int) < 143165577 ∧ (143165577 : Int) ≤ INT_MAX ∧
    ¬ ((1 : Int) < 20 ∧ (143165577 : Int) < 20) ∧
    ¬ ((1 : Int) > 35 ∧ (143165577 : Int) > 35) ∧ (1 : Int) ≤ 143165577 ∧
    update samplePorts ⟨1, 143165577, 0, 0, []⟩ =
      Except.ok ⟨1, 143165577, 1908874446, 50,
        [ Event.moveCall 50 1 (-2147483641),
          Event.motorSet 2 1908874446, Event.motorSet 3 1908874446,
          Event.motorSet 4 (-50), Event.motorSet 5 (-50) ]⟩ ∧
    ¬ ((15 : Int) ∣ -2147483641) ∧ ¬ ((15 : Int) ≤ -2147483641) := by
  refine ⟨by decide, by decide, by decide, by decide, by decide, by decide, ?_,
    by decide, by decide⟩
  decide

/-- C17, amended: with strictly positive 32-bit readings that reach a steering
branch (not both below 20, not both above 35), `update` returns having called
`move(50, 1, turnAngle)` with `turnAngle` non-zero; and when 15 times the
quotient of the larger reading by the smaller is at most `INT_MAX`, `turnAngle`
is a multiple of 15, at most `-15` when left exceeds right and at least `15`
when left is at most right. -/
theorem update_steer_never_straight (P : MotorPorts) (g : Globals)
    (hl : 0 < g.leftSonarValue) (hr : 0 < g.rightSonarValue)
    (hlmax : g.leftSonarValue ≤ INT_MAX) (hrmax : g.rightSonarValue ≤ INT_MAX)
    (hnb : ¬ (g.leftSonarValue < 20 ∧ g.rightSonarValue < 20))
    (hnt : ¬ (g.leftSonarValue > 35 ∧ g.rightSonarValue > 35)) :
    ∃ (g' : Globals) (turnAngle : Int),
      update P g = Except.ok g' ∧
      moveCalls g'.trace = moveCalls g.trace ++ [(50, 1, turnAngle)] ∧
      turnAngle ≠ 0 ∧
      (g.leftSonarValue > g.rightSonarValue →
        Int.tdiv g.leftSonarValue g.rightSonarValue * 15 ≤ INT_MAX →
        (15 : Int) ∣ turnAngle ∧ turnAngle ≤ -15) ∧
      (g.leftSonarValue ≤ g.rightSonarValue →
        Int.tdiv g.rightSonarValue g.leftSonarValue * 15 ≤ INT_MAX →
        (15 : Int) ∣ turnAngle ∧ 15 ≤ turnAngle) := by
  obtain ⟨k, hk, hk1, hk2⟩ := update_steer_angle P g hl hr hnb hnt
  have hne : wrap32 (k * 15) ≠ 0 := by
    have hb : k ≠ 0 ∧ INT_MIN ≤ k ∧ k ≤ INT_MAX := by
      unfold INT_MIN INT_MAX at *
      rcases lt_or_le g.rightSonarValue g.leftSonarValue with h' | h'
      · have := hk1 h'
        omega
      · have := hk2 h'
        omega
    exact wrap32_mul_fifteen_ne_zero k hb.1 hb.2.1 hb.2.2
  refine ⟨_, wrap32 (k * 15), hk, moveCalls_setMotors_move _ _ _ _ _, hne, ?_, ?_⟩
  · intro hgt hfit
    obtain ⟨e, h1, _⟩ := hk1 hgt
    have hw : wrap32 (k * 15) = k * 15 := by
      apply wrap32_of_fits
      · unfold INT_MIN
        unfold INT_MAX at hfit
        omega
      · unfold INT_MAX
        omega
    rw [hw]
    exact ⟨Dvd.intro_left k rfl, by omega⟩
  · intro hle hfit
    obtain ⟨e, h1, _⟩ := hk2 hle
    have hw : wrap32 (k * 15) = k * 15 := by
      apply wrap32_of_fits
      · unfold INT_MIN
        omega
      · rw [e]
        exact hfit
    rw [hw]
    exact ⟨Dvd.intro_left k rfl, by omega⟩

/-- Readings `(30, 10)`: the call is `move(50, 1, -45)`. -/
theorem update_steer_never_straight_witness :
    (0 : Int) < 30 ∧ (0 : Int) < 10 ∧ (30 : Int) ≤ INT_MAX ∧ (10 : Int) ≤ INT_MAX ∧
    ¬ ((30 : Int) < 20 ∧ (10 : Int) < 20) ∧ ¬ ((30 : Int) > 35 ∧ (10 : Int) > 35) ∧
    ∃ (g' : Globals) (turnAngle : Int),
      update samplePorts ⟨30, 10, 0, 0, []⟩ = Except.ok g' ∧
      moveCalls g'.trace = [(50, 1, turnAngle)] ∧
      turnAngle ≠ 0 ∧
      ((30 : Int) > 10 → Int.tdiv 30 10 * 15 ≤ INT_MAX →
        (15 : Int) ∣ turnAngle ∧ turnAngle ≤ -15) ∧
      ((30 : Int) ≤ 10 → Int.tdiv 10 30 * 15 ≤ INT_MAX →
        (15 : Int) ∣ turnAngle ∧ 15 ≤ turnAngle) :=
  ⟨by decide, by decide, by decide, by decide, by decide, by decide,
    update_steer_never_straight samplePorts ⟨30, 10, 0, 0, []⟩
      (by decide) (by decide) (by decide) (by decide) (by decide) (by decide)⟩

/-- C18: for every speed, direction and non-zero `turnAngle`, and whatever the
states `move` is entered with, the wheel pair of `move(speed, direction,
-turnAngle)` is the wheel pair of `move(speed, direction, turnAngle)` with left
and right swapped. -/
theorem move_mirror_symmetric (speed direction turnAngle : Int) (g₁ g₂ : Globals)
    (h : turnAngle ≠ 0) :
    (move speed direction (-turnAngle) g₁).leftMotorValue =
      (move speed direction turnAngle g₂).rightMotorValue ∧
    (move speed direction (-turnAngle) g₁).rightMotorValue =
      (move speed direction turnAngle g₂).leftMotorValue := by
  rw [move_leftMotorValue, move_rightMotorValue, move_leftMotorValue, move_rightMotorValue,
    turnMagnitude_neg]
  rcases lt_or_gt_of_ne h with hneg | hpos
  · rw [if_pos (by omega : -turnAngle > 0), if_neg (by omega : ¬ turnAngle > 0),
      if_pos (by omega : -turnAngle > 0), if_neg (by omega : ¬ turnAngle > 0)]
    exact ⟨rfl, rfl⟩
  · rw [if_neg (by omega : ¬ -turnAngle > 0), if_pos hpos,
      if_neg (by omega : ¬ -turnAngle > 0), if_pos hpos]
    exact ⟨rfl, rfl⟩

/-- Arguments `(50, 1, 30)` against `(50, 1, -30)`: `(0, 50)` and `(50, 0)`. -/
theorem move_mirror_symmetric_witness :
    (30 : Int) ≠ 0 ∧
    (move 50 1 (-30) zeroGlobals).leftMotorValue = (move 50 1 30 zeroGlobals).rightMotorValue ∧
    (move 50 1 (-30) zeroGlobals).rightMotorValue = (move 50 1 30 zeroGlobals).leftMotorValue :=
  ⟨by decide, move_mirror_symmetric 50 1 30 zeroGlobals zeroGlobals (by decide)⟩

end AutonomousDrive
